import Mathlib

/-!
Verification of the lead-categorization core of `src/app.py`.

The embedding translates, from the source:
* `normalize_url`   (app.py lines 43-55), including a model of
  `urllib.parse.urlparse(url).path` as implemented in CPython 3.11.6 —
  with all three netloc-validation `ValueError` paths of `urlsplit`
  (mismatched bracket, bracketed-host validation via `ipaddress`, and the
  NFKC netloc check);
* `parse_journey`   (app.py lines 72-92), including models of the two
  `re.findall` calls it performs;
* the per-token mapping loop, the priority-resolution loop and the row loop
  of `categorize_leads` (app.py lines 94-115);
* the constant `all_lead_categories_options` (app.py lines 12-39).

Machine strings are modelled as `String` (Lean lists of characters); Python
exceptions are modelled by `Except String`.  Character-class predicates are
modelled at ASCII fidelity (the Unicode-only differences of Python's
`str.lower`, `str.strip` and `re` character classes are noted at each
definition; no theorem below depends on the characters concerned).
-/

/-- Python `\s` / `str.isspace()` for the characters of the Basic Multilingual
Plane that Python treats as whitespace: ASCII whitespace, the C1/Unicode
space characters.  (`re` and `str.strip` agree on these.) -/
def pyIsSpace (c : Char) : Bool :=
  c = ' ' || c = '\t' || c = '\n' || c = '\r' ||
  c.toNat = 0x0b || c.toNat = 0x0c ||
  (0x1c ≤ c.toNat && c.toNat ≤ 0x1f) ||
  c.toNat = 0x85 || c.toNat = 0xa0 || c.toNat = 0x1680 ||
  (0x2000 ≤ c.toNat && c.toNat ≤ 0x200a) ||
  c.toNat = 0x2028 || c.toNat = 0x2029 || c.toNat = 0x202f ||
  c.toNat = 0x205f || c.toNat = 0x3000

/-- Characters admitted by `[^\s,\]]+` in the regex `https?://[^\s,\]]+`
of `parse_journey` (app.py line 82): everything except whitespace, the comma
and the closing square bracket.  Note the opening bracket `[` is admitted. -/
def urlBodyChar (c : Char) : Bool :=
  !(pyIsSpace c || c = ',' || c = ']')

/-- Characters admitted by `[a-zA-Z0-9\-\/_]+` in the regex
`/[a-zA-Z0-9\-\/_]+` of `parse_journey` (app.py line 86). -/
def pathChar (c : Char) : Bool :=
  c.isAlpha || c.isDigit || c = '-' || c = '/' || c = '_'

/-- Strips the literal character sequence `pre` from the front of `l`,
returning the remainder, or `none` when `pre` is not a prefix. -/
def stripLit : List Char → List Char → Option (List Char)
  | [], l => some l
  | _ :: _, [] => none
  | p :: ps, c :: cs => if c = p then stripLit ps cs else none

/-- One attempted match of the regex `https?://[^\s,\]]+` at the head of `l`
(match semantics of `re`: the literal `http`, an optional `s` taken greedily,
the literal `://`, then a maximal nonempty run of `urlBodyChar`s).
Returns the matched text and the remainder of the input. -/
def tryURL (l : List Char) : Option (List Char × List Char) :=
  match stripLit "http".data l with
  | none => none
  | some r1 =>
    match stripLit "s://".data r1 with
    | some r3 =>
      let body := r3.takeWhile urlBodyChar
      if body = [] then none
      else some ("https://".data ++ body, r3.dropWhile urlBodyChar)
    | none =>
      match stripLit "://".data r1 with
      | none => none
      | some r3 =>
        let body := r3.takeWhile urlBodyChar
        if body = [] then none
        else some ("http://".data ++ body, r3.dropWhile urlBodyChar)

/-- One attempted match of the regex `/[a-zA-Z0-9\-\/_]+` at the head of `l`:
a literal `/` followed by a maximal nonempty run of `pathChar`s. -/
def tryPath : List Char → Option (List Char × List Char)
  | [] => none
  | c :: cs =>
    if c = '/' then
      let body := cs.takeWhile pathChar
      if body = [] then none
      else some ('/' :: body, cs.dropWhile pathChar)
    else none

/-- Model of `re.findall`: scan left to right, attempt a match at every
position, emit non-overlapping matches in order of appearance.  `fuel` is an
upper bound on the number of scanning steps; every matcher used below
consumes at least one character, so `fuel = l.length` is always enough. -/
def findallAux (try_ : List Char → Option (List Char × List Char)) :
    Nat → List Char → List (List Char)
  | 0, _ => []
  | _ + 1, [] => []
  | fuel + 1, c :: cs =>
    match try_ (c :: cs) with
    | some (t, r) => t :: findallAux try_ fuel r
    | none => findallAux try_ fuel cs

/-- `re.findall(r'https?://[^\s,\]]+', s)` (app.py line 82). -/
def findallURLs (l : List Char) : List (List Char) :=
  findallAux tryURL l.length l

/-- `re.findall(r'/[a-zA-Z0-9\-\/_]+', s)` (app.py line 86). -/
def findallPaths (l : List Char) : List (List Char) :=
  findallAux tryPath l.length l

/-- `parse_journey` (app.py lines 72-92).  The input is taken in its string
form (`str(row)` in the source).  The final `if not url_list: url_list = []`
of the source is a no-op on lists and is not represented. -/
def parse_journey (row : String) : List String :=
  let url_list := (findallURLs row.data).map String.mk
  if url_list = [] then (findallPaths row.data).map String.mk
  else url_list

/-- Characters of the scheme part of a URL: `urllib.parse.scheme_chars`,
namely ASCII letters, digits and `+-.` . -/
def schemeChar (c : Char) : Bool :=
  c.isAlpha || c.isDigit || c = '+' || c = '-' || c = '.'

/-- The pre-processing `urlsplit` applies before splitting: strip leading
C0-control/space characters, then remove every tab, carriage return and
line feed (CPython 3.11, `_WHATWG_C0_CONTROL_OR_SPACE` and
`_UNSAFE_URL_BYTES_TO_REMOVE`). -/
def preprocessUrl (s : String) : List Char :=
  ((s.data.dropWhile fun c => c.toNat ≤ 0x20).filter
    fun c => !(c = '\t' || c = '\r' || c = '\n'))

/-- Scheme recognition of `urlsplit`: the text before the first `:` is a
scheme when it is nonempty, starts with an ASCII letter and consists of
scheme characters; the scheme is lower-cased and removed together with the
colon, and otherwise the input is left whole. -/
def splitScheme (l : List Char) : String × List Char :=
  match List.findIdx? (fun c => c = ':') l with
  | some i =>
    if 0 < i && (l.headD ' ').isAlpha && (l.take i).all schemeChar then
      (String.mk ((l.take i).map Char.toLower), l.drop (i + 1))
    else ("", l)
  | none => ("", l)

/-- Characters that may appear in a netloc: everything before the first
`/`, `?` or `#`. -/
def netlocChar (c : Char) : Bool :=
  !(c = '/' || c = '?' || c = '#')

/-- Netloc recognition of `urlsplit`: present exactly when the remaining
text starts with `//`; it extends to the first `/`, `?` or `#`. -/
def splitNetloc (l : List Char) : List Char × List Char :=
  if l.take 2 = ['/', '/'] then
    ((l.drop 2).takeWhile netlocChar, (l.drop 2).dropWhile netlocChar)
  else ([], l)

/-- The condition under which `urlsplit` raises `ValueError("Invalid IPv6
URL")`: the netloc contains `[` without `]` or `]` without `[`. -/
def bracketMismatch (netloc : List Char) : Bool :=
  (netloc.contains '[' && !netloc.contains ']') ||
  (netloc.contains ']' && !netloc.contains '[')

/-- ASCII hexadecimal digit (`ipaddress._HEX_DIGITS`). -/
def isHexAsciiDigit (c : Char) : Bool :=
  c.isDigit || ('a' ≤ c && c ≤ 'f') || ('A' ≤ c && c ≤ 'F')

/-- Decimal value of an ASCII digit string. -/
def decVal (s : List Char) : Nat :=
  s.foldl (fun n c => 10 * n + (c.toNat - 48)) 0

/-- One octet of a dotted-quad IPv4 address (`ipaddress._parse_octet`,
CPython 3.11.6): nonempty, ASCII digits only, at most three characters, no
leading zero unless the octet is exactly `0`, value at most 255. -/
def isIpv4Octet (s : List Char) : Bool :=
  !s.isEmpty && s.all Char.isDigit && decide (s.length ≤ 3) &&
  (s == ['0'] || s.headD ' ' != '0') && decide (decVal s ≤ 255)

/-- IPv4 address string (`ipaddress._BaseV4._ip_int_from_string`, validity
only): nonempty, exactly four dot-separated octets. -/
def isIpv4Chars (s : List Char) : Bool :=
  !s.isEmpty &&
    (let octets := s.splitOn '.'
     octets.length == 4 && octets.all isIpv4Octet)

/-- One hextet of an IPv6 address (`ipaddress._parse_hextet`): one to four
ASCII hex digits. -/
def isHextet (s : List Char) : Bool :=
  s.all isHexAsciiDigit && decide (s.length ≤ 4) && !s.isEmpty

/-- Core IPv6 textual grammar (`ipaddress._BaseV6._ip_int_from_string`,
validity only): colon-separated hextets with at most one `::` run, a
leading or trailing colon only as part of `::`, an optional final dotted
quad standing for two hextets, and eight groups in total (fewer only with
`::`). -/
def isIpv6Core (s : List Char) : Bool :=
  !s.isEmpty &&
    (let parts0 := s.splitOn ':'
     decide (3 ≤ parts0.length) &&
       (let lastPart := parts0.getLastD []
        let hasV4 := lastPart.contains '.'
        (!hasV4 || isIpv4Chars lastPart) &&
          (let parts := if hasV4 then parts0.dropLast ++ [['0'], ['0']] else parts0
           decide (parts.length ≤ 9) &&
             (let inner := (parts.drop 1).dropLast
              let empties := (inner.filter fun p => p.isEmpty).length
              let headEmpty := (parts.headD [' ']).isEmpty
              let lastEmpty := (parts.getLastD [' ']).isEmpty
              if empties == 1 then
                let skip := 1 + inner.findIdx fun p => p.isEmpty
                let lo0 := parts.length - skip - 1
                (!headEmpty || skip == 1) && (!lastEmpty || lo0 == 1) &&
                  (let hi := if headEmpty then skip - 1 else skip
                   let lo := if lastEmpty then lo0 - 1 else lo0
                   decide (hi + lo ≤ 7) && (parts.take hi).all isHextet &&
                     (parts.drop (parts.length - lo)).all isHextet)
              else
                empties == 0 && parts.length == 8 && !headEmpty &&
                  !lastEmpty && parts.all isHextet))))

/-- IPv6 address string with optional `%scope` suffix
(`ipaddress.IPv6Address.__init__` and `_split_scope_id`, validity only: the
scope, when present, is nonempty and contains no further `%`; the
constructor's rejection of `/` is unreachable from a netloc, which never
contains `/`). -/
def isIpv6Chars (s : List Char) : Bool :=
  if s.contains '%' then
    (let addr := s.takeWhile fun c => c != '%'
     let scope := (s.dropWhile fun c => c != '%').drop 1
     !scope.isEmpty && !scope.contains '%' && isIpv6Core addr)
  else isIpv6Core s

/-- The IPvFuture test of `_check_bracketed_host`:
`re.match(r"\Av[a-fA-F0-9]+\..+\Z", host)` — a `v`, one or more hex
digits, a dot, then one or more further characters none of which is a line
feed (`.` does not match a newline). -/
def ipvFutureOk (host : List Char) : Bool :=
  match host with
  | 'v' :: rest =>
    !(rest.takeWhile isHexAsciiDigit).isEmpty &&
      (match rest.dropWhile isHexAsciiDigit with
       | '.' :: tail => !tail.isEmpty && tail.all fun c => c != '\n'
       | _ => false)
  | _ => false

/-- The text between the first `[` of the netloc and the `]` that follows:
`netloc.partition('[')[2].partition(']')[0]`. -/
def bracketedHost (netloc : List Char) : List Char :=
  ((netloc.dropWhile fun c => c != '[').drop 1).takeWhile fun c => c != ']'

/-- Python `repr` of a string, for the strings reachable here (netloc text
never contains a quote, backslash or control character after
pre-processing): the text between single quotes. -/
def pyRepr (s : List Char) : String :=
  "'" ++ String.mk s ++ "'"

/-- `_check_bracketed_host` (urllib.parse, CPython 3.11.6): a bracketed
host starting with `v` must be an IPvFuture address; any other bracketed
host must parse under `ipaddress.ip_address` and must not be an IPv4
address.  Returns the `ValueError` message, or `none` when accepted. -/
def checkBracketedHost (host : List Char) : Option String :=
  if host.headD ' ' = 'v' then
    if ipvFutureOk host then none else some "IPvFuture address is invalid"
  else if isIpv4Chars host then some "An IPv4 address cannot be in brackets"
  else if isIpv6Chars host then none
  else some (pyRepr host ++ " does not appear to be an IPv4 or IPv6 address")

/-- The code points whose NFKC normalization contains one of `/?#@:`
(Unicode 14.0, as shipped with CPython 3.11.6).  These are exactly the
characters that trigger `_checknetloc`: the separators have no canonical
decomposition and do not compose, so they can only enter an NFKC
normalization through the compatibility decomposition of a single
character, making this per-character test equivalent to the string-level
test of the source. -/
def nfkcForbiddenChar (c : Char) : Bool :=
  c.toNat = 0x2047 || c.toNat = 0x2048 || c.toNat = 0x2049 ||
  c.toNat = 0x2100 || c.toNat = 0x2101 || c.toNat = 0x2105 ||
  c.toNat = 0x2106 || c.toNat = 0x2a74 || c.toNat = 0xfe13 ||
  c.toNat = 0xfe16 || c.toNat = 0xfe55 || c.toNat = 0xfe56 ||
  c.toNat = 0xfe5f || c.toNat = 0xfe6b || c.toNat = 0xff03 ||
  c.toNat = 0xff0f || c.toNat = 0xff1a || c.toNat = 0xff1f ||
  c.toNat = 0xff20

/-- `_checknetloc` (urllib.parse, CPython 3.11.6): raises exactly when the
netloc, with the already-significant `@ : # ?` removed, contains a
character whose NFKC normalization introduces one of `/?#@:`.  Returns the
`ValueError` message or `none`. -/
def checknetloc (netloc : List Char) : Option String :=
  if (netloc.filter fun c => !(c = '@' || c = ':' || c = '#' || c = '?')).any
      nfkcForbiddenChar then
    some ("netloc '" ++ String.mk netloc ++
      "' contains invalid characters under NFKC normalization")
  else none

/-- The netloc-validation `ValueError`s of `urlsplit`, in source order: the
mismatched-bracket `"Invalid IPv6 URL"`, then the bracketed-host
validation when the netloc contains both `[` and `]`, then the NFKC
check. -/
def netlocError (netloc : List Char) : Option String :=
  if bracketMismatch netloc then some "Invalid IPv6 URL"
  else if netloc.contains '[' && netloc.contains ']' then
    match checkBracketedHost (bracketedHost netloc) with
    | some e => some e
    | none => checknetloc netloc
  else checknetloc netloc

/-- `urllib.parse.uses_params` (CPython 3.11): the schemes for which
`urlparse` splits a params component off the path. -/
def usesParams : List String :=
  ["", "ftp", "hdl", "prospero", "http", "imap", "https", "shttp", "rtsp",
   "rtsps", "rtspu", "sip", "sips", "mms", "sftp", "tel"]

/-- `urllib.parse._splitparams`, keeping only the path part: when the path
contains a `/`, a `;` is looked for only from the last `/` on; the path is
truncated at the `;` found (left whole when there is none). -/
def splitParamsPath (p : List Char) : List Char :=
  if p.contains '/' then
    let k := p.length - 1 - List.findIdx (fun c => c = '/') p.reverse
    match List.findIdx? (fun c => c = ';') (p.drop k) with
    | none => p
    | some j => p.take (k + j)
  else
    match List.findIdx? (fun c => c = ';') p with
    | none => p
    | some j => p.take j

/-- The path component computed by `urlparse` after scheme and netloc
removal: the text up to the first `#` (fragment split) and then up to the
first `?` (query split), with the params part removed when the scheme uses
params and a `;` is present. -/
def pathFrom (scheme : String) (l : List Char) : List Char :=
  let p := (l.takeWhile fun c => c != '#').takeWhile fun c => c != '?'
  if usesParams.contains scheme && p.contains ';' then splitParamsPath p
  else p

/-- Model of CPython 3.11.6 `urllib.parse.urlparse(url).path`, including
every `ValueError` path of `urlsplit`: the mismatched-bracket error, the
bracketed-host validation and the netloc NFKC check.  `Except.error`
carries the exception's message.  (In the source the NFKC check runs after
the fragment/query split; no split can change the netloc, so raising it
here is equivalent.) -/
def urlparse_path (url : String) : Except String String :=
  let l0 := preprocessUrl url
  let sl := splitScheme l0
  let nl := splitNetloc sl.2
  match netlocError nl.1 with
  | some e => Except.error e
  | none => Except.ok (String.mk (pathFrom sl.1 nl.2))

/-- Python `str.strip()`: remove leading and trailing whitespace. -/
def pyStrip (s : String) : String :=
  String.mk (((s.data.dropWhile pyIsSpace).reverse.dropWhile pyIsSpace).reverse)

/-- Python `str.lower()` at ASCII fidelity. -/
def pyLower (s : String) : String :=
  String.mk (s.data.map Char.toLower)

/-- `normalize_url` (app.py lines 43-55):
`url = url.lower().strip(); parsed = urlparse(url); return parsed.path`. -/
def normalize_url (url : String) : Except String String :=
  urlparse_path (pyStrip (pyLower url))

/-- The priority list of the application, `all_lead_categories_options`
(app.py lines 12-39). -/
def all_lead_categories_options : List String :=
  ["Neighborhood: Downtown Fort Lauderdale",
   "Neighborhood: Las Olas Isles",
   "Neighborhood: Bermuda Riviera",
   "Neighborhood: Lauderdale Harbours",
   "Neighborhood: Fort Lauderdale Beach",
   "Neighborhood: Coral Ridge",
   "Neighborhood: Rio Vista",
   "Neighborhood: Victoria Park",
   "Neighborhood: Tarpon River",
   "Neighborhood: Lake Ridge",
   "Condo: NuRiver Landing Condo",
   "Condo: Watergarden",
   "Condo: Symphony",
   "Condo: Las Olas Grand",
   "Condo: 100 Las Olas",
   "Condo: Las Olas By The River",
   "Condo: Las Olas River House",
   "Condo: Strada",
   "Condo: Waverly",
   "Condo: NuRiver Landing",
   "New Construction",
   "Waterfront Homes",
   "High Rise Riverfront Condos",
   "other",
   "BUY",
   "SELL",
   "GENERAL"]

/-- Helper for Python's substring test `pat in hay` on character lists:
true when `pat` occurs contiguously inside `hay`. -/
def infixChars (pat : List Char) : List Char → Bool
  | [] => pat.isEmpty
  | c :: t => pat.isPrefixOf (c :: t) || infixChars pat t

/-- Python's substring test `pat in hay` for strings. -/
def strContains (hay pat : String) : Bool :=
  infixChars pat.data hay.data

/-- The inner mapping loop of `categorize_leads` (app.py lines 103-105):
`for key in category_map: if key.lower() in item.lower():
matched_categories.add(category_map[key])`.  The dict is modelled as an
association list iterated in insertion order (each pair is a key with its
value); the matched set is a duplicate-free list grown with `List.insert`. -/
def addMatches (category_map : List (String × String)) (item : String)
    (acc : List String) : List String :=
  match category_map with
  | [] => acc
  | kv :: rest =>
    addMatches rest item
      (if strContains (pyLower item) (pyLower kv.1) then acc.insert kv.2
       else acc)

/-- The mapper of the spec's §4.3 (`match(normalizedUrl, map)`): the matched
set produced from one normalized URL, starting from the empty set. -/
def matchSet (category_map : List (String × String)) (item : String) :
    List String :=
  addMatches category_map item []

/-- The token loop of `categorize_leads` (app.py lines 101-105): each token
is normalized, then matched against the map, accumulating the matched set.
A `ValueError` raised by `normalize_url` aborts the whole computation, as an
exception does in Python. -/
def matchedOf (category_map : List (String × String)) :
    List String → List String → Except String (List String)
  | acc, [] => Except.ok acc
  | acc, t :: rest =>
    match normalize_url t with
    | Except.error e => Except.error e
    | Except.ok item => matchedOf category_map (addMatches category_map item acc) rest

/-- The priority-resolution loop of `categorize_leads` (app.py lines
107-112): `final_category = 'GENERAL'; for priority in priority_list: if
priority in matched_categories: final_category = priority; break`. -/
def resolve_category (matched : List String) : List String → String
  | [] => "GENERAL"
  | p :: rest => if p ∈ matched then p else resolve_category matched rest

/-- The row loop of `categorize_leads` (app.py lines 97-115).  The first
argument list is the carried `matched_categories` set; the source executes
`matched_categories.clear()` at the top of every iteration, so the carried
set is emptied before use (which is why the value carried in is never
read). -/
def categorizeLoop (priority_list : List String)
    (category_map : List (String × String)) :
    List String → List String → Except String (List String)
  | _matched, [] => Except.ok []
  | _matched, row :: rest =>
    match matchedOf category_map [] (parse_journey row) with
    | Except.error e => Except.error e
    | Except.ok m =>
      match categorizeLoop priority_list category_map m rest with
      | Except.error e => Except.error e
      | Except.ok tail => Except.ok (resolve_category m priority_list :: tail)

/-- A dataset record: the fields of one row, as field-name/value pairs
(values in their string form). -/
abbrev Record := List (String × String)

/-- Reading one field of a record. -/
def getField (r : Record) (col : String) : String :=
  (((r.find? fun kv => kv.1 == col).map Prod.snd).getD "")

/-- `leads_df[column_name].tolist()` (app.py line 97): the journey column of
the dataset.  The surrounding application validates that the column exists
(app.py lines 203-205); a missing field reads as the empty string here. -/
def colToList (leads_df : List Record) (column_name : String) : List String :=
  leads_df.map fun r => getField r column_name

/-- `categorize_leads` (app.py lines 58-115): classify every record of the
dataset, one category per record, starting from a fresh empty
`matched_categories` set. -/
def categorize_leads (leads_df : List Record) (priority_list : List String)
    (category_map : List (String × String)) (column_name : String) :
    Except String (List String) :=
  categorizeLoop priority_list category_map [] (colToList leads_df column_name)

/-- The processing `categorize_leads` applies to a single record's journey
value: parse, normalize and match each token, resolve by priority. -/
def categorize_record (category_map : List (String × String))
    (priority_list : List String) (row : String) : Except String String :=
  match matchedOf category_map [] (parse_journey row) with
  | Except.error e => Except.error e
  | Except.ok m => Except.ok (resolve_category m priority_list)

/-- State-threaded view of a call to `categorize_leads`: the dataset the
caller holds after the call, paired with the returned category list.  The
source only reads the dataset (a copy of one column, line 97) and never
assigns into it, so the embedded call returns the dataset it received. -/
def categorize_leads_call (leads_df : List Record)
    (priority_list : List String) (category_map : List (String × String))
    (column_name : String) :
    List Record × Except String (List String) :=
  (leads_df, categorize_leads leads_df priority_list category_map column_name)

/-- Shape of a token produced by the full-URL regex: `http://` or
`https://` followed by a nonempty run of `urlBodyChar`s. -/
def urlTokenShape (t : List Char) : Prop :=
  ∃ body : List Char, body ≠ [] ∧ (∀ c ∈ body, urlBodyChar c = true) ∧
    (t = "http://".data ++ body ∨ t = "https://".data ++ body)

/-- Shape of a token produced by the path regex: `/` followed by a nonempty
run of `pathChar`s. -/
def pathTokenShape (t : List Char) : Prop :=
  ∃ body : List Char, body ≠ [] ∧ (∀ c ∈ body, pathChar c = true) ∧
    t = '/' :: body

/-- Characters admitted by the claim's reading of the full-URL body:
everything except whitespace, the comma and both square brackets. -/
def specBodyChar (c : Char) : Bool :=
  !(pyIsSpace c || c = ',' || c = '[' || c = ']')

/-- One attempted match of the full-URL pattern as claim C7 words it
(`scheme://` followed by non-whitespace, non-comma, non-bracket characters):
a nonempty run of ASCII letters as the scheme, the literal `://`, then a
maximal nonempty run of `specBodyChar`s.  This definition follows the
claim's wording, not the source; it exists only to state the C7
counterexample. -/
def trySpecURL (l : List Char) : Option (List Char × List Char) :=
  let scheme := l.takeWhile Char.isAlpha
  if scheme = [] then none
  else
    match stripLit "://".data (l.dropWhile Char.isAlpha) with
    | none => none
    | some r =>
      let body := r.takeWhile specBodyChar
      if body = [] then none
      else some (scheme ++ "://".data ++ body, r.dropWhile specBodyChar)

/-- The journey parser as claim C7 words it (steps 2-4 with a generic
`scheme://` full-URL pattern excluding both brackets); follows the claim's
wording, not the source. -/
def parse_journey_spec (row : String) : List String :=
  let url_list := (findallAux trySpecURL row.data.length row.data).map String.mk
  if url_list = [] then (findallPaths row.data).map String.mk
  else url_list

-- Checks of the parser model against observed re.findall behaviour:
example : parse_journey "no urls here" = [] := by decide
example : parse_journey "['/a','/b']" = ["/a", "/b"] := by decide
example :
    parse_journey "['https://site.com/a','https://site.com/b']" =
      ["https://site.com/a'", "https://site.com/b'"] := by decide
example : parse_journey "HTTP://x" = ["//x"] := by decide
example : parse_journey "ftp://a http://b[c" = ["http://b[c"] := by decide
example : parse_journey "http://[a" = ["http://[a"] := by decide
example : parse_journey "httpshttps://a" = ["https://a"] := by decide
example : parse_journey "a/b/c" = ["/b/c"] := by decide

-- Checks of the normalizer model against observed urlparse behaviour:
example : normalize_url "HTTPS://Example.com/Foo/Bar?x=1" =
    Except.ok "/foo/bar" := rfl
example : normalize_url "/Foo/Bar" = Except.ok "/foo/bar" := rfl
example : normalize_url "http://[a" = Except.error "Invalid IPv6 URL" := rfl
example : normalize_url "A?b#c" = Except.ok "a" := rfl
example : normalize_url "///a" = Except.ok "/a" := rfl
example : normalize_url "http://x/a;b" = Except.ok "/a" := rfl
example : normalize_url "a;b" = Except.ok "a" := rfl
example : normalize_url "/x;y/z" = Except.ok "/x;y/z" := rfl
example : normalize_url "1a://x/y" = Except.ok "1a://x/y" := rfl
example : normalize_url "a1://x/y" = Except.ok "/y" := rfl
example : normalize_url " hi " = Except.ok "hi" := rfl
example : normalize_url "http//x" = Except.ok "http//x" := rfl
example : normalize_url "a:b/c;d" = Except.ok "b/c;d" := rfl

-- Checks of the netloc-validation model against observed CPython 3.11.6
-- behaviour (each expected value produced by running
-- urlparse(url.lower().strip()).path on the real interpreter):
example : normalize_url "http://[zz]" =
    Except.error "'zz' does not appear to be an IPv4 or IPv6 address" := rfl
example : normalize_url "http://℀" =
    Except.error "netloc '℀' contains invalid characters under NFKC normalization" := rfl
example : normalize_url "http://[::1]/x" = Except.ok "/x" := rfl
example : normalize_url "http://[::1]:80/x" = Except.ok "/x" := rfl
example : normalize_url "http://[127.0.0.1]" =
    Except.error "An IPv4 address cannot be in brackets" := rfl
example : normalize_url "http://[v1.a]/p" = Except.ok "/p" := rfl
example : normalize_url "http://[vg.a]" =
    Except.error "IPvFuture address is invalid" := rfl
example : normalize_url "http://[v1.]" =
    Except.error "IPvFuture address is invalid" := rfl
example : normalize_url "http://[1::2::3]" =
    Except.error "'1::2::3' does not appear to be an IPv4 or IPv6 address" := rfl
example : normalize_url "http://[1:2:3:4:5:6:7:8]/q" = Except.ok "/q" := rfl
example : normalize_url "http://[1:2:3:4:5:6:7:8:9]" =
    Except.error "'1:2:3:4:5:6:7:8:9' does not appear to be an IPv4 or IPv6 address" := rfl
example : normalize_url "http://[::ffff:1.2.3.4]" = Except.ok "" := rfl
example : normalize_url "http://[::ffff:1.2.3.04]" =
    Except.error "'::ffff:1.2.3.04' does not appear to be an IPv4 or IPv6 address" := rfl
example : normalize_url "http://[fe80::1%25eth0]" = Except.ok "" := rfl
example : normalize_url "http://[fe80::1%]" =
    Except.error "'fe80::1%' does not appear to be an IPv4 or IPv6 address" := rfl
example : normalize_url "http://[:::]" =
    Except.error "':::' does not appear to be an IPv4 or IPv6 address" := rfl
example : normalize_url "http://[::1.2.3]" =
    Except.error "'::1.2.3' does not appear to be an IPv4 or IPv6 address" := rfl
example : normalize_url "http://x：80" =
    Except.error "netloc 'x：80' contains invalid characters under NFKC normalization" := rfl
example : normalize_url "http://é/x" = Except.ok "/x" := rfl
example : normalize_url "http://[FE80::1]" = Except.ok "" := rfl
example : normalize_url "http://[12345::]" =
    Except.error "'12345::' does not appear to be an IPv4 or IPv6 address" := rfl
example : normalize_url "http://[1:2::5:6:7:8]/y" = Except.ok "/y" := rfl
example : normalize_url "http://[1:2:3:4:5:6:7::]" = Except.ok "" := rfl
example : normalize_url "http://[]" =
    Except.error "'' does not appear to be an IPv4 or IPv6 address" := rfl
example : normalize_url "http://]a[" =
    Except.error "'' does not appear to be an IPv4 or IPv6 address" := rfl
example : normalize_url "http://[::]" = Except.ok "" := rfl
example : normalize_url "http://[0:0:0:0:0:0:0:1]" = Except.ok "" := rfl
example : normalize_url "http://[1.2.3.4.5]" =
    Except.error "'1.2.3.4.5' does not appear to be an IPv4 or IPv6 address" := rfl
example : normalize_url "http://user@[::1]/p" = Except.ok "/p" := rfl
example : normalize_url "http://℀/path" =
    Except.error "netloc '℀' contains invalid characters under NFKC normalization" := rfl
example : normalize_url "http://a@b:80/p" = Except.ok "/p" := rfl
example : normalize_url "http://[1:2:3:4:5:6:1.2.3.4]" = Except.ok "" := rfl
example : normalize_url "http://[256.1.1.1]" =
    Except.error "'256.1.1.1' does not appear to be an IPv4 or IPv6 address" := rfl
example : normalize_url "http://[1:2:3:4:5:6:7:01]" = Except.ok "" := rfl
example : normalize_url "http://[v1.a\nb]" = Except.ok "" := rfl
example : normalize_url "http://[fe80::1%25eth%30]" =
    Except.error "'fe80::1%25eth%30' does not appear to be an IPv4 or IPv6 address" := rfl


-- Checks of the classifier model on concrete data:
example :
    categorize_leads [[("journey", "['/listings/condo-x-123']")], [("journey", "zzz")]]
      ["Condo: X", "GENERAL"] [("condo-x", "Condo: X")] "journey" =
    Except.ok ["Condo: X", "GENERAL"] := rfl
example :
    categorize_leads [[("journey", "http://[a")]] all_lead_categories_options
      [("condo-x", "Condo: X")] "journey" =
    Except.error "Invalid IPv6 URL" := rfl
example : matchSet [("Condo-X", "CX")] "/CONDO-X/unit1" = ["CX"] := rfl
example :
    resolve_category ["SELL", "BUY"] all_lead_categories_options = "BUY" := rfl

-- Check of the claim-side parser on the C7 counterexample input:
example : parse_journey_spec "ftp://a http://b[c" = ["ftp://a", "http://b"] := by
  decide

/-- `infixChars` decides the contiguous-substring relation. -/
theorem infixChars_iff (pat : List Char) :
    ∀ hay : List Char, infixChars pat hay = true ↔ pat <:+: hay := by
  intro hay
  induction hay with
  | nil => simp [infixChars, List.isEmpty_iff, List.infix_nil]
  | cons c t ih =>
    simp [infixChars, List.isPrefixOf_iff_prefix, ih, List.infix_cons_iff]

/-- Membership in the matched set grown by the inner mapping loop: a
category is present exactly when it was already present or some pattern of
the map matches (case-insensitively, as a substring) and carries it. -/
theorem mem_addMatches (category_map : List (String × String)) (item : String) :
    ∀ (acc : List String) (c : String),
      c ∈ addMatches category_map item acc ↔
        c ∈ acc ∨ ∃ kv, kv ∈ category_map ∧
          strContains (pyLower item) (pyLower kv.1) = true ∧ kv.2 = c := by
  induction category_map with
  | nil => intro acc c; simp [addMatches]
  | cons kv rest ih =>
    intro acc c
    simp only [addMatches]
    by_cases h : strContains (pyLower item) (pyLower kv.1) = true
    · rw [if_pos h, ih]
      simp only [List.mem_insert_iff, List.mem_cons]
      constructor
      · rintro ((rfl | hc) | ⟨kv', hkv', hs, rfl⟩)
        · exact Or.inr ⟨kv, Or.inl rfl, h, rfl⟩
        · exact Or.inl hc
        · exact Or.inr ⟨kv', Or.inr hkv', hs, rfl⟩
      · rintro (hc | ⟨kv', (rfl | hkv'), hs, rfl⟩)
        · exact Or.inl (Or.inr hc)
        · exact Or.inl (Or.inl rfl)
        · exact Or.inr ⟨kv', hkv', hs, rfl⟩
    · rw [if_neg h, ih]
      simp only [List.mem_cons]
      constructor
      · rintro (hc | ⟨kv', hkv', hs, rfl⟩)
        · exact Or.inl hc
        · exact Or.inr ⟨kv', Or.inr hkv', hs, rfl⟩
      · rintro (hc | ⟨kv', (rfl | hkv'), hs, rfl⟩)
        · exact Or.inl hc
        · exact (h hs).elim
        · exact Or.inr ⟨kv', hkv', hs, rfl⟩

/-- The matched set stays duplicate-free: `set.add` collapses duplicates. -/
theorem addMatches_nodup (category_map : List (String × String)) (item : String) :
    ∀ acc : List String, acc.Nodup → (addMatches category_map item acc).Nodup := by
  induction category_map with
  | nil => intro acc h; exact h
  | cons kv rest ih =>
    intro acc h
    simp only [addMatches]
    by_cases hc : strContains (pyLower item) (pyLower kv.1) = true
    · rw [if_pos hc]; exact ih _ h.insert
    · rw [if_neg hc]; exact ih _ h

/-- Membership in the matched set accumulated over a token list: a category
is present exactly when it was already present or some token normalizes
successfully to a URL that some pattern of the map matches. -/
theorem matchedOf_ok_mem (category_map : List (String × String)) :
    ∀ (toks acc s : List String),
      matchedOf category_map acc toks = Except.ok s →
      ∀ c, c ∈ s ↔ c ∈ acc ∨ ∃ t, t ∈ toks ∧ ∃ item,
        normalize_url t = Except.ok item ∧ ∃ kv, kv ∈ category_map ∧
          strContains (pyLower item) (pyLower kv.1) = true ∧ kv.2 = c := by
  intro toks
  induction toks with
  | nil =>
    intro acc s h c
    simp only [matchedOf, Except.ok.injEq] at h
    subst h
    simp
  | cons t rest ih =>
    intro acc s h c
    cases hn : normalize_url t with
    | error e =>
      simp only [matchedOf, hn] at h
      exact (Except.noConfusion h)
    | ok item =>
      simp only [matchedOf, hn] at h
      rw [ih _ _ h c, mem_addMatches]
      constructor
      · rintro ((hc | ⟨kv, hkv, hs, rfl⟩) | ⟨t', ht', item', hn', hrest⟩)
        · exact Or.inl hc
        · exact Or.inr ⟨t, List.mem_cons_self t rest, item, hn, kv, hkv, hs, rfl⟩
        · exact Or.inr ⟨t', List.mem_cons_of_mem t ht', item', hn', hrest⟩
      · rintro (hc | ⟨t', ht', item', hn', hrest⟩)
        · exact Or.inl (Or.inl hc)
        · rcases List.mem_cons.mp ht' with rfl | ht''
          · rw [hn] at hn'
            injection hn' with he
            subst he
            exact Or.inl (Or.inr hrest)
          · exact Or.inr ⟨t', ht'', item', hn', hrest⟩

/-- Journeys that are permutations of one another produce matched sets with
the same members (when both normalize without error). -/
theorem matchedOf_perm_mem (category_map : List (String × String))
    {j j' s s' : List String} (hperm : j.Perm j')
    (h : matchedOf category_map [] j = Except.ok s)
    (h' : matchedOf category_map [] j' = Except.ok s') :
    ∀ c, c ∈ s ↔ c ∈ s' := by
  intro c
  rw [matchedOf_ok_mem category_map j [] s h c,
      matchedOf_ok_mem category_map j' [] s' h' c]
  simp only [List.not_mem_nil, false_or]
  exact exists_congr fun t => and_congr_left fun _ => hperm.mem_iff

/-- The resolution loop only looks at membership in the matched set: any
two sets with the same members resolve identically (set iteration order can
never influence the result). -/
theorem resolve_category_ext (m m' : List String)
    (h : ∀ c, c ∈ m ↔ c ∈ m') :
    ∀ p : List String, resolve_category m p = resolve_category m' p := by
  intro p
  induction p with
  | nil => rfl
  | cons q rest ih =>
    simp only [resolve_category]
    by_cases hq : q ∈ m
    · rw [if_pos hq, if_pos ((h q).mp hq)]
    · rw [if_neg hq, if_neg fun hq' => hq ((h q).mpr hq'), ih]

/-- The resolution loop returns the first priority entry present in the
matched set. -/
theorem resolve_category_first (m : List String) (p : String) :
    ∀ l₁ l₂ : List String, p ∈ m → (∀ q ∈ l₁, q ∉ m) →
      resolve_category m (l₁ ++ p :: l₂) = p := by
  intro l₁ l₂ hp
  induction l₁ with
  | nil => intro _; simp [resolve_category, hp]
  | cons q l ih =>
    intro hnone
    have hq : q ∉ m := hnone q (List.mem_cons_self q l)
    simp only [List.cons_append, resolve_category, if_neg hq]
    exact ih fun r hr => hnone r (List.mem_cons_of_mem q hr)

/-- When no priority entry is in the matched set the loop falls through to
the initial value `"GENERAL"`. -/
theorem resolve_category_none (m : List String) :
    ∀ p : List String, (∀ q ∈ p, q ∉ m) → resolve_category m p = "GENERAL" := by
  intro p
  induction p with
  | nil => intro _; rfl
  | cons q rest ih =>
    intro h
    have hq : q ∉ m := h q (List.mem_cons_self q rest)
    simp only [resolve_category, if_neg hq]
    exact ih fun r hr => h r (List.mem_cons_of_mem q hr)

/-- The resolved category is a priority entry or the fallback. -/
theorem resolve_category_mem (m : List String) :
    ∀ p : List String,
      resolve_category m p ∈ p ∨ resolve_category m p = "GENERAL" := by
  intro p
  induction p with
  | nil => exact Or.inr rfl
  | cons q rest ih =>
    by_cases hq : q ∈ m
    · rw [resolve_category, if_pos hq]
      exact Or.inl (List.mem_cons_self q rest)
    · rw [resolve_category, if_neg hq]
      rcases ih with h | h
      · exact Or.inl (List.mem_cons_of_mem q h)
      · exact Or.inr h

/-- The carried `matched_categories` set is cleared before every use, so the
row loop's result does not depend on the value carried in. -/
theorem categorizeLoop_init (priority_list : List String)
    (category_map : List (String × String)) :
    ∀ rows init₁ init₂ : List String,
      categorizeLoop priority_list category_map init₁ rows =
        categorizeLoop priority_list category_map init₂ rows := by
  intro rows init₁ init₂
  cases rows with
  | nil => rfl
  | cons row rest => rfl

/-- Specification of a successful run of the row loop: one output per row,
in row order, each the per-record categorization of its row. -/
theorem categorizeLoop_ok (priority_list : List String)
    (category_map : List (String × String)) :
    ∀ (rows : List String) (out : List String) (init : List String),
      categorizeLoop priority_list category_map init rows = Except.ok out →
      out.length = rows.length ∧
      ∀ (i : Nat) (hi : i < rows.length) (ho : i < out.length),
        categorize_record category_map priority_list (rows.get ⟨i, hi⟩) =
          Except.ok (out.get ⟨i, ho⟩) := by
  intro rows
  induction rows with
  | nil =>
    intro out init h
    simp only [categorizeLoop, Except.ok.injEq] at h
    subst h
    exact ⟨rfl, fun i hi => absurd hi (Nat.not_lt_zero i)⟩
  | cons row rest ih =>
    intro out init h
    cases hm : matchedOf category_map [] (parse_journey row) with
    | error e =>
      simp only [categorizeLoop, hm] at h
      exact (Except.noConfusion h)
    | ok m =>
      cases hl : categorizeLoop priority_list category_map m rest with
      | error e =>
        simp only [categorizeLoop, hm, hl] at h
        exact (Except.noConfusion h)
      | ok tail =>
        simp only [categorizeLoop, hm, hl, Except.ok.injEq] at h
        subst h
        obtain ⟨hlen, hget⟩ := ih tail m hl
        refine ⟨by simp [hlen], ?_⟩
        intro i hi ho
        cases i with
        | zero => simp [categorize_record, hm]
        | succ n =>
          simpa using hget n (Nat.lt_of_succ_lt_succ hi) (Nat.lt_of_succ_lt_succ ho)

/-- A category produced for a single record is a priority entry or the
fallback. -/
theorem categorize_record_vocab (category_map : List (String × String))
    (priority_list : List String) (row : String) (c : String)
    (h : categorize_record category_map priority_list row = Except.ok c) :
    c ∈ priority_list ∨ c = "GENERAL" := by
  cases hm : matchedOf category_map [] (parse_journey row) with
  | error e =>
    simp only [categorize_record, hm] at h
    exact (Except.noConfusion h)
  | ok m =>
    simp only [categorize_record, hm, Except.ok.injEq] at h
    subst h
    exact resolve_category_mem m priority_list

/-- Every match the URL matcher emits has the URL token shape. -/
theorem tryURL_shape (l t r : List Char) (h : tryURL l = some (t, r)) :
    urlTokenShape t := by
  simp only [tryURL] at h
  split at h
  · exact (Option.noConfusion h)
  · split at h
    · split at h
      · exact (Option.noConfusion h)
      · next hbody =>
        simp only [Option.some.injEq, Prod.mk.injEq] at h
        obtain ⟨rfl, rfl⟩ := h
        exact ⟨_, hbody, fun c hc => List.mem_takeWhile_imp hc, Or.inr rfl⟩
    · split at h
      · exact (Option.noConfusion h)
      · split at h
        · exact (Option.noConfusion h)
        · next hbody =>
          simp only [Option.some.injEq, Prod.mk.injEq] at h
          obtain ⟨rfl, rfl⟩ := h
          exact ⟨_, hbody, fun c hc => List.mem_takeWhile_imp hc, Or.inl rfl⟩

/-- Every match the path matcher emits has the path token shape. -/
theorem tryPath_shape (l t r : List Char) (h : tryPath l = some (t, r)) :
    pathTokenShape t := by
  cases l with
  | nil => exact (Option.noConfusion h)
  | cons c cs =>
    simp only [tryPath] at h
    split at h
    · split at h
      · exact (Option.noConfusion h)
      · next hc hbody =>
        simp only [Option.some.injEq, Prod.mk.injEq] at h
        obtain ⟨rfl, rfl⟩ := h
        subst hc
        exact ⟨_, hbody, fun d hd => List.mem_takeWhile_imp hd, rfl⟩
    · exact (Option.noConfusion h)

/-- Every token emitted by the findall driver comes from a successful match
of the matcher, hence inherits any shape the matcher guarantees. -/
theorem findallAux_shape {P : List Char → Prop}
    (try_ : List Char → Option (List Char × List Char))
    (htry : ∀ l t r, try_ l = some (t, r) → P t) :
    ∀ (fuel : Nat) (l t : List Char), t ∈ findallAux try_ fuel l → P t := by
  intro fuel
  induction fuel with
  | zero => intro l t ht; simp [findallAux] at ht
  | succ f ih =>
    intro l t ht
    cases l with
    | nil => simp [findallAux] at ht
    | cons c cs =>
      cases htr : try_ (c :: cs) with
      | none =>
        simp only [findallAux, htr] at ht
        exact ih cs t ht
      | some pr =>
        cases pr with
        | mk t₁ r₁ =>
          simp only [findallAux, htr] at ht
          rcases List.mem_cons.mp ht with rfl | ht'
          · exact htry (c :: cs) t r₁ htr
          · exact ih r₁ t ht'

/-- When no scheme is recognized, `splitScheme` leaves the input whole. -/
theorem splitScheme_empty (l : List Char) (h : (splitScheme l).1 = "") :
    (splitScheme l).2 = l := by
  cases hf : List.findIdx? (fun c => c = ':') l with
  | none => simp [splitScheme, hf]
  | some i =>
    have hne : l ≠ [] := by
      rintro rfl
      simp [List.findIdx?] at hf
    simp only [splitScheme, hf] at h ⊢
    split at h
    · next hcond =>
      exfalso
      simp only [Bool.and_eq_true, decide_eq_true_eq] at hcond
      have hi : 0 < i := hcond.1.1
      have hdata := congrArg String.data h
      simp only [List.map_eq_nil_iff] at hdata
      rcases List.take_eq_nil_iff.mp hdata with h0 | h0
      · omega
      · exact hne h0
    · next hcond => rw [if_neg hcond]

/-- Claim C1: for every matched-category set and every priority list, the
resolver scans the priority list in its fixed order and returns the first
entry that is a member of the matched set, returning `"GENERAL"` when none
is; the result depends only on membership in the matched set (never on set
iteration order), and journeys that are permutations of one another (tokens
in any order) resolve identically. -/
theorem C1_resolver_priority_order :
    ∀ matched matched' priority : List String,
      ((∀ c, c ∈ matched ↔ c ∈ matched') →
        resolve_category matched priority = resolve_category matched' priority) ∧
      (∀ (l₁ : List String) (p : String) (l₂ : List String),
        priority = l₁ ++ p :: l₂ → p ∈ matched → (∀ q ∈ l₁, q ∉ matched) →
        resolve_category matched priority = p) ∧
      ((∀ q ∈ priority, q ∉ matched) →
        resolve_category matched priority = "GENERAL") ∧
      (∀ (category_map : List (String × String)) (j j' s s' : List String),
        j.Perm j' → matchedOf category_map [] j = Except.ok s →
        matchedOf category_map [] j' = Except.ok s' →
        resolve_category s priority = resolve_category s' priority) := by
  intro matched matched' priority
  refine ⟨fun h => resolve_category_ext matched matched' h priority, ?_,
    resolve_category_none matched priority, ?_⟩
  · rintro l₁ p l₂ rfl hp hnone
    exact resolve_category_first matched p l₁ l₂ hp hnone
  · intro category_map j j' s s' hperm hs hs'
    exact resolve_category_ext s s'
      (matchedOf_perm_mem category_map hperm hs hs') priority

/-- Witness for C1: with matched set `{SELL, BUY}` (stored in either order)
and priority `[other, BUY, SELL, GENERAL]`, the result is `BUY` — the
earlier priority entry, not the first element of the set. -/
theorem C1_resolver_priority_order_witness :
    resolve_category ["SELL", "BUY"] ["other", "BUY", "SELL", "GENERAL"] =
      "BUY" :=
  (C1_resolver_priority_order ["SELL", "BUY"] ["SELL", "BUY"]
      ["other", "BUY", "SELL", "GENERAL"]).2.1 ["other"] "BUY"
    ["SELL", "GENERAL"] rfl (by decide) (by decide)

/-- Claim C2 (counterexample): `normalize_url` is not total — on the input
`"http://[a"` (producible by the journey parser, whose URL regex admits
`[`) the underlying `urlparse` raises `ValueError("Invalid IPv6 URL")`, so
it is false that normalize raises no exception under any input. -/
theorem C2_normalize_never_fails_cex :
    normalize_url "http://[a" = Except.error "Invalid IPv6 URL" ∧
    ¬ ∀ url : String, ∃ v : String, normalize_url url = Except.ok v := by
  refine ⟨rfl, fun hall => ?_⟩
  rcases hall "http://[a" with ⟨v, hv⟩
  rw [show normalize_url "http://[a" = Except.error "Invalid IPv6 URL" from rfl]
    at hv
  exact (Except.noConfusion hv)

/-- Claim C2 (amended): `normalize_url` lower-cases and trims its input
and raises exactly the netloc-validation `ValueError`s of `urlparse` —
`"Invalid IPv6 URL"` when the netloc has `[` without `]` or `]` without
`[`, the bracketed-host errors when a host in brackets is not a valid
IPvFuture or IPv6 address (or is an IPv4 address), and the NFKC error when
the netloc contains a character that NFKC-normalizes to include a
separator; on every other input it succeeds, and an input in which no
scheme and no `//` netloc prefix is recognized degrades to the trimmed,
lower-cased original string truncated at the first `#`, then at the first
`?`, with a params part after `;` removed (`pathFrom ""`), rather than to
the original string itself. -/
theorem C2_normalize_never_fails_amended :
    ∀ url : String,
      ((∃ v, normalize_url url = Except.ok v) ↔
        netlocError
          (splitNetloc (splitScheme (preprocessUrl (pyStrip (pyLower url)))).2).1 =
          none) ∧
      (∀ e, normalize_url url = Except.error e ↔
        netlocError
          (splitNetloc (splitScheme (preprocessUrl (pyStrip (pyLower url)))).2).1 =
          some e) ∧
      ((splitScheme (preprocessUrl (pyStrip (pyLower url)))).1 = "" →
        (preprocessUrl (pyStrip (pyLower url))).take 2 ≠ ['/', '/'] →
        normalize_url url =
          Except.ok
            (String.mk (pathFrom "" (preprocessUrl (pyStrip (pyLower url)))))) := by
  intro url
  refine ⟨?_, ?_, ?_⟩
  · simp only [normalize_url, urlparse_path]
    cases hne : netlocError
        (splitNetloc (splitScheme (preprocessUrl (pyStrip (pyLower url)))).2).1 with
    | none => simp
    | some e => simp
  · intro e
    simp only [normalize_url, urlparse_path]
    cases hne : netlocError
        (splitNetloc (splitScheme (preprocessUrl (pyStrip (pyLower url)))).2).1 with
    | none => simp
    | some e2 => simp
  · intro hs hn
    have h2 : (splitScheme (preprocessUrl (pyStrip (pyLower url)))).2 =
        preprocessUrl (pyStrip (pyLower url)) := splitScheme_empty _ hs
    simp only [normalize_url, urlparse_path, h2, hs]
    simp only [splitNetloc]
    rw [if_neg hn]
    simp [netlocError, bracketMismatch, checknetloc]

/-- Witness for the amended C2: a scheme-less, netloc-less input is
truncated at `?` and `#` (and not returned whole). -/
theorem C2_normalize_never_fails_amended_witness :
    normalize_url "A?b#c" = Except.ok "a" := by
  have h := (C2_normalize_never_fails_amended "A?b#c").2.2 (by decide) (by decide)
  exact h.trans rfl

/-- Claim C3 (counterexample): the first worked example of the spec fails on
the code — the URL regex does not exclude the quote character, so the
extracted tokens keep a trailing `'`. -/
theorem C3_parser_examples_cex :
    parse_journey "['https://site.com/a','https://site.com/b']" ≠
      ["https://site.com/a", "https://site.com/b"] := by decide

/-- Claim C3 (amended): the three worked examples with the first corrected —
the full-URL tokens are extracted with their trailing quote
(`["https://site.com/a'", "https://site.com/b'"]`); the other two examples
hold as stated. -/
theorem C3_parser_examples_amended :
    parse_journey "['https://site.com/a','https://site.com/b']" =
      ["https://site.com/a'", "https://site.com/b'"] ∧
    parse_journey "['/a','/b']" = ["/a", "/b"] ∧
    parse_journey "no urls here" = [] :=
  ⟨by decide, by decide, by decide⟩

/-- Claim C4 (code bug): on a dataset whose journey field contains the token
`http://[a` — which the URL regex extracts — `categorize_leads` propagates
the `ValueError("Invalid IPv6 URL")` raised by `urlparse` inside
`normalize_url` and returns no category list at all, instead of returning
one category per input record. -/
theorem C4_classify_length_bug :
    categorize_leads [[("journey", "http://[a")]] all_lead_categories_options
      [("condo-x", "Condo: X")] "journey" =
    Except.error "Invalid IPv6 URL" := rfl

/-- Claim C5: every category in a returned classification is an element of
the priority list or the fallback `"GENERAL"`; a map value appearing
nowhere in the priority list is never returned. -/
theorem C5_output_vocabulary :
    ∀ (leads_df : List Record) (priority_list : List String)
      (category_map : List (String × String)) (column_name : String)
      (out : List String),
      categorize_leads leads_df priority_list category_map column_name =
        Except.ok out →
      ∀ c ∈ out, c ∈ priority_list ∨ c = "GENERAL" := by
  intro df pl cm col out h c hc
  obtain ⟨hlen, hget⟩ := categorizeLoop_ok pl cm (colToList df col) out [] h
  rcases List.mem_iff_get.mp hc with ⟨⟨i, ho⟩, hgi⟩
  have hi : i < (colToList df col).length := by omega
  have h1 := hget i hi ho
  rw [hgi] at h1
  exact categorize_record_vocab cm pl _ c h1

/-- Witness for C5 at a concrete run. -/
theorem C5_output_vocabulary_witness :
    "Condo: X" ∈ ["Condo: X", "GENERAL"] ∨ "Condo: X" = "GENERAL" :=
  C5_output_vocabulary [[("journey", "/condo-x/1")]] ["Condo: X", "GENERAL"]
    [("condo-x", "Condo: X")] "journey" ["Condo: X"] rfl "Condo: X" (by decide)

/-- Claim C6: the mapper tests every pattern of the map as a
case-insensitive substring of the normalized URL; each matching pattern
contributes its category, duplicates collapse (the matched set is
duplicate-free), no match yields the empty set rather than an error, and
the pattern `Condo-X` matches the token `/CONDO-X/unit1`.  The
`strContains` test used throughout is exactly the contiguous-substring
relation. -/
theorem C6_mapper_substring :
    ∀ (category_map : List (String × String)) (item : String),
      (∀ c, c ∈ matchSet category_map item ↔
        ∃ kv, kv ∈ category_map ∧
          strContains (pyLower item) (pyLower kv.1) = true ∧ kv.2 = c) ∧
      (matchSet category_map item).Nodup ∧
      ((∀ kv ∈ category_map,
          strContains (pyLower item) (pyLower kv.1) = false) →
        matchSet category_map item = []) ∧
      (∀ hay pat : String, strContains hay pat = true ↔ pat.data <:+: hay.data) ∧
      matchSet [("Condo-X", "CX")] "/CONDO-X/unit1" = ["CX"] := by
  intro cm item
  refine ⟨?_, addMatches_nodup cm item [] List.nodup_nil, ?_, ?_, by decide⟩
  · intro c
    rw [matchSet, mem_addMatches]
    simp
  · intro h
    rw [List.eq_nil_iff_forall_not_mem]
    intro c hc
    rw [matchSet, mem_addMatches] at hc
    rcases hc with hc | ⟨kv, hkv, hs, _⟩
    · exact List.not_mem_nil c hc
    · rw [h kv hkv] at hs
      exact Bool.noConfusion hs
  · intro hay pat
    exact infixChars_iff pat.data hay.data

/-- Witness for C6: a map none of whose patterns occur in the URL yields the
empty matched set. -/
theorem C6_mapper_substring_witness :
    matchSet [("x", "Condo: X")] "qqq" = [] :=
  (C6_mapper_substring [("x", "Condo: X")] "qqq").2.2.1 (by decide)

/-- Claim C7 (counterexample): the code's full-URL pattern is not
`scheme://` with both brackets excluded — only the literal schemes `http`
and `https` match and only `]` is excluded — so the parser described by
the claim and the implemented parser disagree at `"ftp://a http://b[c"`. -/
theorem C7_parser_steps_cex :
    parse_journey "ftp://a http://b[c" = ["http://b[c"] ∧
    parse_journey_spec "ftp://a http://b[c" = ["ftp://a", "http://b"] ∧
    parse_journey "ftp://a http://b[c" ≠
      parse_journey_spec "ftp://a http://b[c" :=
  ⟨by decide, by decide, by decide⟩

/-- Claim C7 (amended): the parser first extracts all matches of `http://`
or `https://` followed by one or more characters other than whitespace,
comma and the closing bracket, in order of appearance; only when that finds
nothing does it extract path matches (`/` followed by alphanumerics,
hyphens, underscores or `/`), in order of appearance; and only when both
find nothing does it return the empty sequence. -/
theorem C7_parser_steps_amended :
    ∀ s : String,
      (findallURLs s.data ≠ [] →
        parse_journey s = (findallURLs s.data).map String.mk ∧
        ∀ t ∈ parse_journey s, urlTokenShape t.data) ∧
      (findallURLs s.data = [] → findallPaths s.data ≠ [] →
        parse_journey s = (findallPaths s.data).map String.mk ∧
        ∀ t ∈ parse_journey s, pathTokenShape t.data) ∧
      (findallURLs s.data = [] → findallPaths s.data = [] →
        parse_journey s = []) := by
  intro s
  refine ⟨?_, ?_, ?_⟩
  · intro h
    have hp : parse_journey s = (findallURLs s.data).map String.mk := by
      simp only [parse_journey]
      rw [if_neg (by simpa using h)]
    refine ⟨hp, ?_⟩
    intro t ht
    rw [hp] at ht
    rcases List.mem_map.mp ht with ⟨cs, hcs, rfl⟩
    exact findallAux_shape tryURL tryURL_shape _ _ cs hcs
  · intro h hp'
    have hp : parse_journey s = (findallPaths s.data).map String.mk := by
      simp only [parse_journey]
      rw [if_pos (by simp [h])]
    refine ⟨hp, ?_⟩
    intro t ht
    rw [hp] at ht
    rcases List.mem_map.mp ht with ⟨cs, hcs, rfl⟩
    exact findallAux_shape tryPath tryPath_shape _ _ cs hcs
  · intro h hp'
    simp [parse_journey, h, hp']

/-- Witness for the amended C7 at a concrete input whose URL step finds a
match. -/
theorem C7_parser_steps_amended_witness :
    parse_journey "x http://ab" = ["http://ab"] := by
  have h := (C7_parser_steps_amended "x http://ab").1 (by decide)
  rw [h.1]
  decide

/-- Claim C8: a record whose journey parses to no tokens at all produces an
empty matched set, never raises, and is assigned the fallback `"GENERAL"`
— both for the per-record computation and inside any successful run of the
classifier. -/
theorem C8_unparseable_journey_fallback :
    ∀ (category_map : List (String × String)) (priority_list : List String)
      (row : String) (rows out : List String) (i : Nat)
      (hi : i < rows.length) (ho : i < out.length),
      (parse_journey row = [] →
        categorize_record category_map priority_list row =
          Except.ok "GENERAL") ∧
      (categorizeLoop priority_list category_map [] rows = Except.ok out →
        parse_journey (rows.get ⟨i, hi⟩) = [] →
        out.get ⟨i, ho⟩ = "GENERAL") := by
  intro cm pl row rows out i hi ho
  have hrec : ∀ r : String, parse_journey r = [] →
      categorize_record cm pl r = Except.ok "GENERAL" := by
    intro r hr
    simp only [categorize_record, hr, matchedOf]
    rw [resolve_category_none [] pl fun q _ => List.not_mem_nil q]
  refine ⟨hrec row, ?_⟩
  intro hok hparse
  obtain ⟨hlen, hget⟩ := categorizeLoop_ok pl cm rows out [] hok
  have h1 := hget i hi ho
  rw [hrec _ hparse] at h1
  injection h1 with h2
  exact h2.symm

/-- Witness for C8 at a journey with no extractable token. -/
theorem C8_unparseable_journey_fallback_witness :
    categorize_record [("condo-x", "Condo: X")] all_lead_categories_options
      "no urls here" = Except.ok "GENERAL" :=
  (C8_unparseable_journey_fallback [("condo-x", "Condo: X")]
      all_lead_categories_options "no urls here" ["no urls here"] ["GENERAL"]
      0 (by decide) (by decide)).1 (by decide)

/-- Claim C9: classification does not mutate the input dataset — the
state-threaded view of the call returns the dataset exactly as it was
received, the categories arriving only as the separately returned list. -/
theorem C9_no_mutation :
    ∀ (leads_df : List Record) (priority_list : List String)
      (category_map : List (String × String)) (column_name : String),
      (categorize_leads_call leads_df priority_list category_map
          column_name).1 = leads_df ∧
      (categorize_leads_call leads_df priority_list category_map
          column_name).2 =
        categorize_leads leads_df priority_list category_map column_name :=
  fun _ _ _ _ => ⟨rfl, rfl⟩

/-- Claim C10: the classifier is a pure function of the dataset, the
priority list, the category map and the column name; the only mutable state
of the source, the carried `matched_categories` set, is cleared before
every use, so a run started from any carried set equals the canonical run
— re-running on the same inputs always yields the same output. -/
theorem C10_classify_deterministic :
    ∀ (leads_df : List Record) (priority_list : List String)
      (category_map : List (String × String)) (column_name : String)
      (carried : List String),
      categorizeLoop priority_list category_map carried
          (colToList leads_df column_name) =
        categorize_leads leads_df priority_list category_map column_name := by
  intro df pl cm col carried
  exact categorizeLoop_init pl cm (colToList df col) carried []
